import Mathlib

/-!
Verification development for the QRZ callsign reconciliation script
(fetch_qrz_data.py).  The Python source is shallowly embedded: pure string
manipulation becomes Lean functions on `String`/`List Char`, the database and
network are modelled as explicit parameters (the persisted row, the fetch
result, the wall clock), and the engine's side effects become explicit
`Event` values.  All definitions are structural recursions so that concrete
inputs evaluate by kernel reduction.
-/

/-! ### Generic string helpers (Python semantics)

These model the CPython string primitives used by the script, restricted to
ASCII text (callsigns, names, dates).  Python `str.split()` also splits on
form-feed and vertical tab; `Char.isWhitespace` covers space, tab, CR, LF,
which is exact for the data handled here.
-/

/-- One step of the whitespace split fold: a whitespace character opens a
new (empty) chunk, any other character is prepended to the current chunk. -/
def wsStep (c : Char) (acc : List (List Char)) : List (List Char) :=
  if c.isWhitespace then [] :: acc
  else
    match acc with
    | [] => [[c]]
    | w :: ws => (c :: w) :: ws

/-- Python str.split with no separator: maximal runs of non-whitespace,
implemented as a right fold; empty chunks are produced at separators and
filtered away afterwards. -/
def splitWsRaw (l : List Char) : List (List Char) := l.foldr wsStep []

def pySplitWs (s : String) : List String :=
  ((splitWsRaw s.data).filter (fun w => w ≠ [])).map String.mk

/-- Python str.split(sep) for a single-character separator: keeps empty
chunks, and the empty string yields one empty chunk. -/
def splitOnCharL (sep : Char) (l : List Char) : List (List Char) :=
  l.foldr
    (fun c acc =>
      if c = sep then [] :: acc
      else
        match acc with
        | [] => [[c]]
        | w :: ws => (c :: w) :: ws)
    [[]]

def pySplitChar (sep : Char) (s : String) : List String :=
  (splitOnCharL sep s.data).map String.mk

/-- Python sep.join for sep = a single space. -/
def joinSpace : List String → String
  | [] => ""
  | [x] => x
  | x :: xs => x ++ " " ++ joinSpace xs

/-- Python str.title() for ASCII: a letter is uppercased when the previous
character is not a letter, lowercased otherwise.  The boolean argument
records whether the previous character was a letter. -/
def pyTitleGo : List Char → Bool → List Char
  | [], _ => []
  | c :: r, prev =>
    (if c.isAlpha then (if prev then c.toLower else c.toUpper) else c)
      :: pyTitleGo r c.isAlpha

def pyTitleStr (s : String) : String := String.mk (pyTitleGo s.data false)

def pyUpperStr (s : String) : String := String.mk (s.data.map Char.toUpper)

def lowerStr (s : String) : String := String.mk (s.data.map Char.toLower)

/-- Python str.rstrip(sep) for a single-comma strip set: removes every
trailing comma. -/
def rstripComma (s : String) : String :=
  String.mk ((s.data.reverse.dropWhile (fun c => c = ',')).reverse)

/-- Whether the pattern list occurs as a prefix of the subject list. -/
def isPre : List Char → List Char → Bool
  | [], _ => true
  | _ :: _, [] => false
  | a :: xs, b :: ys => a == b && isPre xs ys

/-- Index of the first occurrence of a substring, Python str.find flavour
(the empty pattern matches at index 0). -/
def firstIdx : List Char → List Char → Option Nat
  | s, sub =>
    match s with
    | [] => if sub = [] then some 0 else none
    | _ :: t => if isPre sub s then some 0 else (firstIdx t sub).map (· + 1)

/-- Python `sub in s` substring test. -/
def containsSub (hay pat : List Char) : Bool := (firstIdx hay pat).isSome

def containsStr (hay pat : String) : Bool := containsSub hay.data pat.data

/-- Python str.find: first index of the substring, or -1. -/
def pyFind (hay needle : String) : Int :=
  match firstIdx hay.data needle.data with
  | some n => (n : Int)
  | none => -1

/-- Python slice s[a:b] for non-negative bounds (the only bounds reachable in
the embedded code): characters at indices a..b-1, clamped to the length. -/
def pySlice (s : String) (a b : Int) : String :=
  String.mk ((s.data.take b.toNat).drop a.toNat)

/-! ### Dates and the wall clock -/

structure Date where
  y : Nat
  m : Nat
  d : Nat
deriving DecidableEq, Repr

/-- datetime.now() as the engine observes it: the current calendar date plus
whether the time of day is past midnight (strptime of a date yields midnight,
so only this bit of the time matters to the comparisons in the source). -/
structure Clock where
  date : Date
  timePos : Bool
deriving DecidableEq, Repr

def dateLtB (a b : Date) : Bool :=
  a.y < b.y || (a.y == b.y && (a.m < b.m || (a.m == b.m && a.d < b.d)))

/-- Comparison of a strptime result against datetime.now(): the parsed date
is at midnight, so it is in the past iff its date precedes today or equals
today with a positive time of day. -/
def strptimeLtNow (d : Date) (now : Clock) : Bool :=
  dateLtB d now.date || (d == now.date && now.timePos)

def isLeap (y : Nat) : Bool :=
  (y % 4 == 0 && y % 100 != 0) || y % 400 == 0

def daysInMonth (y m : Nat) : Nat :=
  if m = 2 then (if isLeap y then 29 else 28)
  else if m = 4 ∨ m = 6 ∨ m = 9 ∨ m = 11 then 30
  else 31

def digitsVal (l : List Char) : Nat :=
  l.foldl (fun a c => 10 * a + (c.toNat - 48)) 0

/-- Model of `datetime.strptime(s, %Y-%m-%d)`: four-digit year, one- or
two-digit month and day, with CPython's range checks (month 1..12, day valid
for the month, year at least 1); anything else fails. -/
def parseDateYMD (s : String) : Option Date :=
  match splitOnCharL '-' s.data with
  | [ys, ms, ds] =>
    if ys.length = 4 ∧ ys.all Char.isDigit
        ∧ (ms.length = 1 ∨ ms.length = 2) ∧ ms.all Char.isDigit
        ∧ (ds.length = 1 ∨ ds.length = 2) ∧ ds.all Char.isDigit then
      let y := digitsVal ys
      let m := digitsVal ms
      let d := digitsVal ds
      if 1 ≤ y ∧ 1 ≤ m ∧ m ≤ 12 ∧ 1 ≤ d ∧ d ≤ daysInMonth y m then
        some ⟨y, m, d⟩
      else none
    else none
  | _ => none

/-- strptime applied to an optional field, with the exception text it raises:
TypeError for a missing value, ValueError for an unparseable one.  (CPython
quotes the offending data in the ValueError text; the quote characters are
omitted here, the data itself is retained.) -/
def strptimeYMDOpt : Option String → Except String Date
  | none => Except.error "strptime() argument 1 must be str, not None"
  | some s =>
    match parseDateYMD s with
    | some d => Except.ok d
    | none =>
      Except.error ("time data " ++ s ++ " does not match format %Y-%m-%d")

/-! ### Leaf functions of fetch_qrz_data.py -/

/-- Source: extract_xml_value.  Faithful to the Python, including the slip
that `start` is computed as find plus marker length before the -1 check, so
the start-marker check never fires. -/
def extract_xml_value (xml_data field : String) : Option String :=
  let startMarker := "<" ++ field ++ ">"
  let endMarker := "</" ++ field ++ ">"
  let start : Int := pyFind xml_data startMarker + (startMarker.length : Int)
  let e : Int := pyFind xml_data endMarker
  if start ≠ -1 ∧ e ≠ -1 then some (pySlice xml_data start e) else none

/-- Source: normalize_first_name (the comparison form used by the match
engine): collapse whitespace, title-case, and drop a single leading
one-letter word when more than one word remains. -/
def normalize_first_name (name : String) : String :=
  let n := pyTitleStr (joinSpace (pySplitWs name))
  let parts := pySplitChar ' ' n
  if 1 < parts.length ∧ (parts.headD "").length = 1 then joinSpace parts.tail
  else n

/-- Source: normalize_name: collapse whitespace and keep the first word. -/
def normalize_name (name : String) : String :=
  (pySplitChar ' ' (joinSpace (pySplitWs name))).headD ""

/-- Source: the first-name storage normalization inside parse_callsign_data
(branch where the fname field is present): title-case, keep the first word,
drop every later word of length 1. -/
def parse_callsign_first_name (first_name : String) : String :=
  let t := pyTitleStr first_name
  match pySplitWs t with
  | [] => t
  | w :: ws => joinSpace (w :: ws.filter (fun x => 1 < x.length))

/-- Source: map_license_class, a dict lookup with default.  The Python dict
keys are the five single-letter codes; everything else (including a missing
code) maps to the literal default string. -/
def map_license_class (class_code : Option String) : String :=
  match class_code with
  | none => "Unknown Class"
  | some s =>
    if s = "E" then "Extra"
    else if s = "G" then "General"
    else if s = "T" then "Technician"
    else if s = "A" then "Advanced"
    else if s = "C" then "Club"
    else "Unknown Class"

/-! ### Identifier cleaning: re.sub of the silent-key pattern -/

/-- Does the list start with a match of the regex /SK\d+ ? -/
def startsSkB : List Char → Bool
  | c0 :: c1 :: c2 :: c3 :: _ => c0 == '/' && c1 == 'S' && c2 == 'K' && c3.isDigit
  | _ => false

/-- Does /SK followed by a digit occur anywhere in the list? -/
def containsSkPattern : List Char → Bool
  | [] => false
  | c :: rest => startsSkB (c :: rest) || containsSkPattern rest

/-- Model of re.sub(r, empty, text) for r = /SK\d+ : left-to-right scan,
each match consumes /SK plus the maximal digit run (when a match starts, the
three marker characters and then the maximal digit run starting at the
fourth character are dropped).  Fuel-indexed so the recursion is structural;
the fuel is always instantiated with the length of the list, which each
non-match step decrements by exactly one. -/
def stripSkFuel : Nat → List Char → List Char
  | 0, l => l
  | _ + 1, [] => []
  | fuel + 1, c :: rest =>
    if startsSkB (c :: rest) then
      stripSkFuel fuel ((rest.drop 2).dropWhile Char.isDigit)
    else c :: stripSkFuel fuel rest

def stripSk (l : List Char) : List Char := stripSkFuel l.length l

/-- Source: process_callsign line computing cleaned_callsign:
re.sub of /SK\d+ applied to the upper-cased raw callsign. -/
def cleaned_callsign (callsign : String) : String :=
  String.mk (stripSk (pyUpperStr callsign).data)

/-! ### The data model of the engine

`Callsign` mirrors the Python class of the same name; `DbRow` is the slice of
tbl_Operator the engine reads (FirstName, LastName, Status); `WriteParams`
collects the column values an UPDATE or INSERT statement would write.  The
database contents and the wall clock are passed in explicitly, and the
engine's side effects are reified as `Event`s.
-/

structure Callsign where
  call : String
  xref : Option String
  first_name : String
  last_name : String
  address : Option String
  town : Option String
  state : Option String
  zip_code : Option String
  country : Option String
  license_start : Option String
  license_end : Option String
  license_class : String
  email : Option String
  status : String := "Active"
deriving DecidableEq, Repr

structure DbRow where
  firstName : String
  lastName : String
  status : String
deriving DecidableEq, Repr

structure WriteParams where
  call : String
  firstName : String
  lastName : String
  address : Option String
  town : Option String
  state : Option String
  zip_code : Option String
  license_start : Option String
  license_end : Option String
  license_class : String
  email : Option String
  status : String
  updated : String
deriving DecidableEq, Repr

inductive EngineAction where
  | skipInvalid
  | update (p : WriteParams)
  | noop
  | flagMismatch (msg : String)
  | insert (p : WriteParams)
deriving DecidableEq, Repr

inductive Event where
  | dbUpdate (p : WriteParams)
  | dbInsert (p : WriteParams)
  | deactivate (call : String) (updated : String)
  | mismatchLog (msg : String)
  | statusLog (line : String)
  | errorPrint (msg : String)
deriving DecidableEq, Repr

/-- Events that write the persisted record (SQL UPDATE or INSERT). -/
def writesRecord : Event → Bool
  | .dbUpdate _ => true
  | .dbInsert _ => true
  | .deactivate _ _ => true
  | _ => false

/-- strftime(%Y-%m-%d) of today, zero-padded. -/
def pad2 (n : Nat) : String := if n < 10 then "0" ++ toString n else toString n

def pad4 (n : Nat) : String :=
  if n < 10 then "000" ++ toString n
  else if n < 100 then "00" ++ toString n
  else if n < 1000 then "0" ++ toString n
  else toString n

def formatDate (d : Date) : String :=
  pad4 d.y ++ "-" ++ pad2 d.m ++ "-" ++ pad2 d.d

/-- The mismatch header and detail lines written by insert_or_update. -/
def mismatch_header (call : String) : String :=
  "No update performed for callsign " ++ call
    ++ " due to mismatch in first or last name.\n"

def first_name_mismatch_line (dbF qrzF : String) : String :=
  "First name mismatch: DB = " ++ dbF ++ ", QRZ = " ++ qrzF ++ "\n"

def last_name_mismatch_line (dbL qrzL : String) : String :=
  "Last name mismatch: DB = " ++ dbL ++ ", QRZ = " ++ qrzL ++ "\n"

/-- Source: the mismatch_message accumulation in insert_or_update: the
detail lines are guarded by normalize_name on the lowercased first names and
by case-insensitive equality of the last names. -/
def mismatch_message (call dbF qrzF dbL qrzL : String) : String :=
  mismatch_header call
    ++ (if normalize_name (lowerStr dbF) ≠ normalize_name (lowerStr qrzF) then
          first_name_mismatch_line dbF qrzF
        else "")
    ++ (if lowerStr dbL ≠ lowerStr qrzL then last_name_mismatch_line dbL qrzL
        else "")

def updateParams (c : Callsign) (status today : String) : WriteParams :=
  { call := c.call, firstName := c.first_name, lastName := c.last_name,
    address := c.address, town := c.town, state := c.state,
    zip_code := c.zip_code, license_start := c.license_start,
    license_end := c.license_end, license_class := c.license_class,
    email := c.email, status := status, updated := today }

def insertParams (c : Callsign) (today : String) : WriteParams :=
  { call := c.call, firstName := c.first_name, lastName := c.last_name,
    address := c.address, town := c.town, state := c.state,
    zip_code := c.zip_code, license_start := c.license_start,
    license_end := c.license_end, license_class := c.license_class,
    email := c.email, status := "New", updated := today }

/-- Whether the record's license end parses under strptime(%Y-%m-%d). -/
def license_end_parses (c : Callsign) : Bool :=
  match strptimeYMDOpt c.license_end with
  | .ok _ => true
  | .error _ => false

/-- Source: insert_or_update_callsign_in_db, as a decision function.  The
`row` argument is the SELECT result for the record's call;
`non_update_statuses` is the configured protected set. -/
def insert_or_update_callsign_in_db (c : Callsign) (row : Option DbRow)
    (now : Clock) (non_update_statuses : List String) : EngineAction :=
  match strptimeYMDOpt c.license_end with
  | .error _ => .skipInvalid
  | .ok led =>
    let status := if strptimeLtNow led now then "License Expired" else c.status
    let today := formatDate now.date
    match row with
    | some r =>
      let db_first_name := rstripComma r.firstName
      if normalize_first_name db_first_name = normalize_first_name c.first_name
          ∧ lowerStr r.lastName = lowerStr c.last_name then
        if non_update_statuses.contains r.status then .noop
        else .update (updateParams c status today)
      else
        .flagMismatch
          (mismatch_message c.call db_first_name c.first_name r.lastName
            c.last_name)
    | none => .insert (insertParams c today)

/-- The events produced by one call of insert_or_update_callsign_in_db. -/
def insert_or_update_events (c : Callsign) (row : Option DbRow) (now : Clock)
    (nus : List String) : List Event :=
  match insert_or_update_callsign_in_db c row now nus with
  | .skipInvalid => []
  | .update p => [.dbUpdate p]
  | .noop => []
  | .flagMismatch m => [.mismatchLog m]
  | .insert p => [.dbInsert p]

/-- Source: update_callsign_status_to_inactive_if_needed, as events: writes
Status=Inactive and Updated=today when a row exists with a non-protected
status, otherwise does nothing. -/
def update_callsign_status_to_inactive_if_needed (call : String)
    (row : Option DbRow) (now : Clock) (nus : List String) : List Event :=
  match row with
  | some r =>
    if nus.contains r.status then [] else [.deactivate call (formatDate now.date)]
  | none => []

/-- Source: check_callsign_status.  Returns the events it emits, or the text
of the exception strptime raises there (which propagates out of the function
because only pyodbc errors are caught inside it). -/
def check_callsign_status (call : String) (c : Callsign) (upd : Bool)
    (row : Option DbRow) (now : Clock) (nus : List String) :
    Except String (List Event) :=
  match row with
  | none => .ok []
  | some r =>
    match strptimeYMDOpt c.license_end with
    | .error m => .error m
    | .ok led =>
      let expected := if strptimeLtNow led now then "License Expired" else "Active"
      if r.status ≠ expected then
        .ok ([.statusLog (call ++ ": Expected status " ++ expected
                ++ ", found " ++ r.status)]
          ++ (if upd ∧ ¬ nus.contains r.status then
                insert_or_update_events c row now nus
              else []))
      else .ok []

/-- The external fetch for one identifier: parsed record or exception text. -/
inductive FetchResult where
  | ok (c : Callsign)
  | err (msg : String)

/-- Source: the except-branch of process_callsign: a message carrying the
Not found marker triggers deactivation, anything else is printed. -/
def handle_process_error (cleaned m : String) (row : Option DbRow)
    (now : Clock) (nus : List String) : List Event :=
  if containsStr m "Not found" then
    update_callsign_status_to_inactive_if_needed cleaned row now nus
  else [.errorPrint ("Error fetching data for " ++ cleaned ++ ": " ++ m)]

/-- Source: process_callsign.  Cleans the identifier, fetches, then performs
the checkstatus pass and the update pass inside one try whose handler is
handle_process_error.  `row` is the persisted record for the cleaned
identifier. -/
def process_callsign (fetch : String → FetchResult) (callsign : String)
    (upd chk : Bool) (row : Option DbRow) (now : Clock) (nus : List String) :
    List Event :=
  let cleaned := cleaned_callsign callsign
  match fetch cleaned with
  | .err m => handle_process_error cleaned m row now nus
  | .ok c0 =>
    let c := { c0 with call := cleaned }
    match (if chk then check_callsign_status cleaned c upd row now nus
           else .ok []) with
    | .error m => handle_process_error cleaned m row now nus
    | .ok chkEvents =>
      chkEvents ++ (if upd then insert_or_update_events c row now nus else [])

/-- Source: refresh_database / the file loop in main: one process_callsign
invocation per identifier, sequential and independent. -/
def refresh_database (fetch : String → FetchResult) (calls : List String)
    (upd chk : Bool) (rows : String → Option DbRow) (now : Clock)
    (nus : List String) : List (List Event) :=
  calls.map (fun call =>
    process_callsign fetch call upd chk (rows (cleaned_callsign call)) now nus)

/-! ### Run outcomes with a failing persistence layer (claim C10)

`writeFails = true` models the cursor.execute of the write statement raising
a pyodbc.Error with text `dbErr`; the except-branch of the source then runs
instead of conn.commit().
-/

structure RunOutcome where
  committed : Bool
  errPrint : Option String
deriving DecidableEq, Repr

/-- insert_or_update_callsign_in_db with an explicit persistence failure:
when the decision reaches a write and the write raises, the error is printed
with the callsign in the message and commit is never reached.  The early
return on an unparseable date also skips the commit. -/
def insert_or_update_run (c : Callsign) (row : Option DbRow) (now : Clock)
    (nus : List String) (writeFails : Bool) (dbErr : String) : RunOutcome :=
  match insert_or_update_callsign_in_db c row now nus with
  | .skipInvalid => { committed := false, errPrint := none }
  | .noop => { committed := true, errPrint := none }
  | .flagMismatch _ => { committed := true, errPrint := none }
  | .update _ =>
    if writeFails then
      { committed := false,
        errPrint := some ("Error inserting or updating callsign " ++ c.call
          ++ " in database: " ++ dbErr) }
    else { committed := true, errPrint := none }
  | .insert _ =>
    if writeFails then
      { committed := false,
        errPrint := some ("Error inserting or updating callsign " ++ c.call
          ++ " in database: " ++ dbErr) }
    else { committed := true, errPrint := none }

/-- update_callsign_status_to_inactive_if_needed with an explicit
persistence failure: its error message does not mention the callsign.
Commit sits inside the guarded branch, so it only runs on a successful
write. -/
def update_inactive_run (call : String) (row : Option DbRow) (now : Clock)
    (nus : List String) (writeFails : Bool) (dbErr : String) : RunOutcome :=
  match row with
  | none => { committed := false, errPrint := none }
  | some r =>
    if nus.contains r.status then { committed := false, errPrint := none }
    else if writeFails then
      { committed := false,
        errPrint := some ("Error updating callsign status in database: " ++ dbErr) }
    else { committed := true, errPrint := none }

/-! ### Spec-side definition for the identifier claim, and concrete fixtures -/

/-- Modelled from the spec: the claimed identifier normalization removes a
TRAILING silent-key suffix only — a final run of digits preceded by the
literal /SK at the very end of the upper-cased input.  Stated here for
comparison against cleaned_callsign, which embeds the source's re.sub. -/
def spec_trailing_suffix_removed (s : String) : String :=
  let u := (pyUpperStr s).data
  let r := u.reverse
  match r.dropWhile Char.isDigit with
  | 'K' :: 'S' :: '/' :: rest =>
    if (r.takeWhile Char.isDigit) ≠ [] then String.mk rest.reverse else String.mk u
  | _ => String.mk u

/-- A concrete normalized record used by witnesses: first name, last name and
license end vary, everything else fixed. -/
def mkRecord (fn ln : String) (le : Option String) : Callsign :=
  { call := "W1AW", xref := none, first_name := fn, last_name := ln,
    address := none, town := none, state := none, zip_code := none,
    country := none, license_start := none, license_end := le,
    license_class := "General", email := none, status := "Active" }

/-- The default protected set from config line 40 of the source. -/
def nusDefault : List String := ["SK", "SILENT KEY"]

/-- A fixed wall clock for witnesses: 2025-10-12, past midnight. -/
def clockOct2025 : Clock := ⟨⟨2025, 10, 12⟩, true⟩

/-! ### Supporting lemmas -/

theorem strData_append (a b : String) : (a ++ b).data = a.data ++ b.data := rfl

theorem isPre_append_self (l t : List Char) : isPre l (l ++ t) = true := by
  induction l with
  | nil => rfl
  | cons c r ih => simp [isPre, ih]

theorem firstIdx_append_self (l b : List Char) :
    (firstIdx (l ++ b) l).isSome = true := by
  cases l with
  | nil =>
    cases b with
    | nil => rfl
    | cons x t => simp [firstIdx, isPre]
  | cons c ls =>
    have h := isPre_append_self (c :: ls) b
    rw [List.cons_append] at h
    simp [firstIdx, h]

theorem containsSub_mid (a l b : List Char) :
    containsSub (a ++ (l ++ b)) l = true := by
  induction a with
  | nil => simpa [containsSub] using firstIdx_append_self l b
  | cons c rest ih =>
    unfold containsSub at ih ⊢
    cases hp : isPre l (c :: (rest ++ (l ++ b))) with
    | true => simp [firstIdx, hp]
    | false =>
      simp only [List.cons_append, firstIdx, hp]
      cases hfi : firstIdx (rest ++ (l ++ b)) l with
      | none => rw [hfi] at ih; simp at ih
      | some n => simp

theorem containsStr_mid (a b c : String) :
    containsStr (a ++ (b ++ c)) b = true := by
  unfold containsStr
  simp only [strData_append]
  exact containsSub_mid a.data b.data c.data

theorem mismatch_message_contains_call (call dbF qrzF dbL qrzL : String) :
    containsStr (mismatch_message call dbF qrzF dbL qrzL) call = true := by
  unfold mismatch_message mismatch_header containsStr
  simp only [strData_append, List.append_assoc]
  exact containsSub_mid _ _ _

theorem strptime_error_of_not_parses {c : Callsign}
    (h : license_end_parses c = false) :
    ∃ em, strptimeYMDOpt c.license_end = .error em := by
  unfold license_end_parses at h
  cases he : strptimeYMDOpt c.license_end with
  | ok d => rw [he] at h; simp at h
  | error em => exact ⟨em, rfl⟩

theorem strptime_ok_of_parses {c : Callsign}
    (h : license_end_parses c = true) :
    ∃ d, strptimeYMDOpt c.license_end = .ok d := by
  unfold license_end_parses at h
  cases he : strptimeYMDOpt c.license_end with
  | ok d => exact ⟨d, rfl⟩
  | error em => rw [he] at h; simp at h

theorem foldr_wsStep_word_cons (w wh : List Char) (wt : List (List Char))
    (h : ∀ c ∈ w, c.isWhitespace = false) :
    w.foldr wsStep (wh :: wt) = (w ++ wh) :: wt := by
  induction w with
  | nil => rfl
  | cons c r ih =>
    rw [List.foldr_cons, ih (fun x hx => h x (List.mem_cons_of_mem _ hx))]
    have hc : c.isWhitespace = false := h c (List.mem_cons_self _ _)
    simp [wsStep, hc]

theorem foldr_wsStep_word_nil (w : List Char) (hne : w ≠ [])
    (h : ∀ c ∈ w, c.isWhitespace = false) :
    w.foldr wsStep [] = [w] := by
  induction w with
  | nil => cases hne rfl
  | cons c r ih =>
    rw [List.foldr_cons]
    have hc : c.isWhitespace = false := h c (List.mem_cons_self _ _)
    cases hr : r with
    | nil => subst hr; simp [wsStep, hc]
    | cons c2 r2 =>
      subst hr
      rw [ih (by simp) (fun x hx => h x (List.mem_cons_of_mem _ hx))]
      simp [wsStep, hc]

theorem pySplitWs_joinSpace (l : List String)
    (h : ∀ w ∈ l, w.data ≠ [] ∧ ∀ c ∈ w.data, c.isWhitespace = false) :
    pySplitWs (joinSpace l) = l := by
  induction l with
  | nil => rfl
  | cons x t ih =>
    obtain ⟨hne, hnw⟩ := h x (List.mem_cons_self _ _)
    cases t with
    | nil =>
      show pySplitWs x = [x]
      unfold pySplitWs splitWsRaw
      rw [foldr_wsStep_word_nil x.data hne hnw]
      simp [List.filter, hne]
    | cons y t2 =>
      have hrest := ih (fun w hw => h w (List.mem_cons_of_mem _ hw))
      show pySplitWs (x ++ " " ++ joinSpace (y :: t2)) = x :: y :: t2
      unfold pySplitWs splitWsRaw
      have hdata : (x ++ " " ++ joinSpace (y :: t2)).data
          = x.data ++ (' ' :: (joinSpace (y :: t2)).data) := by
        simp [strData_append]
      rw [hdata, List.foldr_append]
      have : (' ' :: (joinSpace (y :: t2)).data).foldr wsStep []
          = [] :: (joinSpace (y :: t2)).data.foldr wsStep [] := by
        simp [wsStep]
      rw [this, foldr_wsStep_word_cons x.data [] _ hnw, List.append_nil,
        List.filter_cons, if_pos (by simpa using hne), List.map_cons]
      unfold pySplitWs splitWsRaw at hrest
      rw [show String.mk x.data = x from rfl, hrest]

theorem splitWsRaw_nonws (l : List Char) :
    ∀ w ∈ splitWsRaw l, ∀ c ∈ w, c.isWhitespace = false := by
  induction l with
  | nil => intro w hw; simp [splitWsRaw] at hw
  | cons c r ih =>
    intro w hw cc hcc
    have hstep : splitWsRaw (c :: r) = wsStep c (splitWsRaw r) := rfl
    rw [hstep] at hw
    unfold wsStep at hw
    cases hws : c.isWhitespace with
    | true =>
      rw [hws] at hw; simp at hw
      rcases hw with rfl | hw
      · cases hcc
      · exact ih w hw cc hcc
    | false =>
      rw [hws] at hw; simp at hw
      cases hsp : splitWsRaw r with
      | nil =>
        rw [hsp] at hw; simp at hw
        subst hw
        rcases List.mem_singleton.mp hcc with rfl
        exact hws
      | cons w1 ws1 =>
        rw [hsp] at hw; simp at hw
        rcases hw with rfl | hw
        · rcases List.mem_cons.mp hcc with rfl | hcc'
          · exact hws
          · exact ih w1 (hsp ▸ List.mem_cons_self _ _) cc hcc'
        · exact ih w (hsp ▸ List.mem_cons_of_mem _ hw) cc hcc

theorem pySplitWs_words (s : String) :
    ∀ w ∈ pySplitWs s, w.data ≠ [] ∧ ∀ c ∈ w.data, c.isWhitespace = false := by
  intro w hw
  unfold pySplitWs at hw
  rcases List.mem_map.mp hw with ⟨w', hw', rfl⟩
  have hmem := List.mem_filter.mp hw'
  refine ⟨?_, ?_⟩
  · simpa using hmem.2
  · intro c hc
    exact splitWsRaw_nonws s.data w' hmem.1 c hc

theorem length_filter_lt_of_mem {α : Type} {l : List α} {p : α → Bool} {x : α}
    (hx : x ∈ l) (hp : p x = false) : (l.filter p).length < l.length := by
  induction l with
  | nil => cases hx
  | cons a t ih =>
    rcases List.mem_cons.mp hx with rfl | hx'
    · have h1 := t.length_filter_le p
      simp [List.filter_cons, hp]
      omega
    · cases hpa : p a
      · have h1 := t.length_filter_le p
        simp [List.filter_cons, hpa]
        omega
      · have h1 := ih hx'
        simp [List.filter_cons, hpa]
        omega

theorem stripSkFuel_nil (f : Nat) : stripSkFuel f [] = [] := by
  cases f <;> rfl

theorem stripSk_cons_not_starts {c : Char} {t : List Char}
    (h : startsSkB (c :: t) = false) : stripSk (c :: t) = c :: stripSk t := by
  unfold stripSk
  simp [stripSkFuel, h]

theorem startsSkB_append_sk (c : Char) (p ds : List Char)
    (h : startsSkB (c :: p) = false) :
    startsSkB (c :: (p ++ '/' :: 'S' :: 'K' :: ds)) = false := by
  rcases p with _ | ⟨x, _ | ⟨y, _ | ⟨z, rest⟩⟩⟩
  · simp [startsSkB, show (('/' : Char) == 'S') = false from rfl]
  · simp [startsSkB, show (('/' : Char) == 'K') = false from rfl]
  · simp [startsSkB, show ('/' : Char).isDigit = false from rfl]
  · simpa [startsSkB] using h

theorem stripSk_clean_prefix (p ds : List Char)
    (hp : containsSkPattern p = false) (hne : ds ≠ [])
    (hds : ds.all Char.isDigit = true) :
    stripSk (p ++ '/' :: 'S' :: 'K' :: ds) = p := by
  induction p with
  | nil =>
    rcases ds with _ | ⟨d, ds'⟩
    · cases hne rfl
    · simp only [List.all_cons, Bool.and_eq_true] at hds
      have hstart : startsSkB ('/' :: 'S' :: 'K' :: d :: ds') = true := by
        simp [startsSkB, hds.1]
      show stripSk ('/' :: 'S' :: 'K' :: d :: ds') = []
      unfold stripSk
      simp only [List.length_cons, stripSkFuel, hstart, if_true]
      have hdrop : (('S' :: 'K' :: d :: ds').drop 2).dropWhile Char.isDigit = [] := by
        simp only [List.drop]
        rw [List.dropWhile_cons_of_pos (by simp [hds.1])]
        rw [List.dropWhile_eq_nil_iff]
        intro x hx
        exact (List.all_eq_true.mp hds.2) x hx
      rw [hdrop]
      exact stripSkFuel_nil _
  | cons c p' ih =>
    have hsplit : startsSkB (c :: p') = false ∧ containsSkPattern p' = false := by
      have := hp
      unfold containsSkPattern at this
      exact Bool.or_eq_false_iff.mp this
    rw [List.cons_append, stripSk_cons_not_starts (startsSkB_append_sk c p' ds hsplit.1),
      ih hsplit.2]

theorem stripSk_no_occurrence (l : List Char)
    (h : containsSkPattern l = false) : stripSk l = l := by
  induction l with
  | nil => rfl
  | cons c t ih =>
    have hsplit : startsSkB (c :: t) = false ∧ containsSkPattern t = false := by
      unfold containsSkPattern at h
      exact Bool.or_eq_false_iff.mp h
    rw [stripSk_cons_not_starts hsplit.1, ih hsplit.2]

theorem containsStr_of_data (hay pat : String) (a b : List Char)
    (h : hay.data = a ++ (pat.data ++ b)) : containsStr hay pat = true := by
  unfold containsStr
  rw [h]
  exact containsSub_mid _ _ _

theorem iou_skip_of_error (c : Callsign) (row : Option DbRow) (now : Clock)
    (nus : List String) (em : String)
    (he : strptimeYMDOpt c.license_end = .error em) :
    insert_or_update_callsign_in_db c row now nus = .skipInvalid
    ∧ insert_or_update_events c row now nus = [] := by
  have hact : insert_or_update_callsign_in_db c row now nus = .skipInvalid := by
    unfold insert_or_update_callsign_in_db
    rw [he]
  refine ⟨hact, ?_⟩
  unfold insert_or_update_events
  rw [hact]

theorem iou_action_protected (c : Callsign) (r : DbRow) (now : Clock)
    (nus : List String) (h : nus.contains r.status = true) :
    insert_or_update_callsign_in_db c (some r) now nus = .skipInvalid
    ∨ insert_or_update_callsign_in_db c (some r) now nus = .noop
    ∨ ∃ m, insert_or_update_callsign_in_db c (some r) now nus = .flagMismatch m := by
  unfold insert_or_update_callsign_in_db
  cases hs : strptimeYMDOpt c.license_end with
  | error em => exact Or.inl rfl
  | ok led =>
    by_cases hn : normalize_first_name (rstripComma r.firstName)
        = normalize_first_name c.first_name
        ∧ lowerStr r.lastName = lowerStr c.last_name
    · simp only [hn, if_true, h]
      exact Or.inr (Or.inl (by simp))
    · refine Or.inr (Or.inr ⟨mismatch_message c.call (rstripComma r.firstName)
        c.first_name r.lastName c.last_name, ?_⟩)
      simp [hn]

theorem iou_events_protected (c : Callsign) (r : DbRow) (now : Clock)
    (nus : List String) (h : nus.contains r.status = true) :
    ∀ e ∈ insert_or_update_events c (some r) now nus, writesRecord e = false := by
  intro e he
  unfold insert_or_update_events at he
  rcases iou_action_protected c r now nus h with ha | ha | ⟨m, ha⟩ <;>
    rw [ha] at he <;> simp at he
  subst he; rfl

theorem handle_error_protected (cl m : String) (r : DbRow) (now : Clock)
    (nus : List String) (h : nus.contains r.status = true) :
    ∀ e ∈ handle_process_error cl m (some r) now nus, writesRecord e = false := by
  intro e he
  unfold handle_process_error update_callsign_status_to_inactive_if_needed at he
  cases hc : containsStr m "Not found" with
  | true =>
    rw [hc] at he
    simp [h] at he
    have hmem : r.status ∈ nus := by simpa using h
    exact absurd hmem he.1
  | false =>
    rw [hc] at he; simp at he
    subst he; rfl

theorem check_protected (cl : String) (c : Callsign) (upd : Bool) (r : DbRow)
    (now : Clock) (nus : List String) (evs : List Event)
    (h : nus.contains r.status = true)
    (hc : check_callsign_status cl c upd (some r) now nus = .ok evs) :
    ∀ e ∈ evs, writesRecord e = false := by
  unfold check_callsign_status at hc
  cases hs : strptimeYMDOpt c.license_end with
  | error em => rw [hs] at hc; simp at hc
  | ok led =>
    rw [hs] at hc
    simp only [h, not_true_eq_false, and_false, if_false, List.append_nil] at hc
    by_cases hst : r.status
        ≠ (if strptimeLtNow led now then "License Expired" else "Active")
    · rw [if_pos hst] at hc
      injection hc with hevs
      intro e he
      rw [← hevs] at he
      simp at he
      subst he; rfl
    · rw [if_neg hst] at hc
      injection hc with hevs
      intro e he
      rw [← hevs] at he
      cases he

/-! ### Claim theorems -/

/-- Claim C8: the spec says the Field Extractor returns the substring
between the field's markers and an absent value whenever either marker is
missing.  The code (and its own docstring, which promises None when the
field is not found) is contradicted at the input below: the start marker
is absent but the end marker is present, yet a value is returned, because
start is computed as find plus marker length before the -1 check and so
can never be -1. -/
theorem c8_extract_missing_start_marker_bug :
    extract_xml_value "abcdef</call>" "call" = some "f"
    ∧ extract_xml_value "abcdef</call>" "call" ≠ none := by
  exact ⟨by decide, by decide⟩

/-- Claim C9: the license-class mapping sends E, G, T, A, C to Extra,
General, Technician, Advanced, Club, and every other code (including an
absent one) to the catch-all member (realized by the source as the string
Unknown Class), so the result always lies in the fixed six-member
enumeration. -/
theorem c9_license_class_mapping :
    map_license_class (some "E") = "Extra"
    ∧ map_license_class (some "G") = "General"
    ∧ map_license_class (some "T") = "Technician"
    ∧ map_license_class (some "A") = "Advanced"
    ∧ map_license_class (some "C") = "Club"
    ∧ map_license_class none = "Unknown Class"
    ∧ (∀ code : Option String,
        code ∉ ([some "E", some "G", some "T", some "A", some "C"] :
            List (Option String)) →
        map_license_class code = "Unknown Class")
    ∧ (∀ code : Option String,
        map_license_class code
          ∈ (["Extra", "General", "Technician", "Advanced", "Club",
              "Unknown Class"] : List String)) := by
  refine ⟨rfl, rfl, rfl, rfl, rfl, rfl, ?_, ?_⟩
  · intro code h
    match code with
    | none => rfl
    | some s =>
      have h1 : s ≠ "E" := fun hs => h (by simp [hs])
      have h2 : s ≠ "G" := fun hs => h (by simp [hs])
      have h3 : s ≠ "T" := fun hs => h (by simp [hs])
      have h4 : s ≠ "A" := fun hs => h (by simp [hs])
      have h5 : s ≠ "C" := fun hs => h (by simp [hs])
      simp [map_license_class, h1, h2, h3, h4, h5]
  · intro code
    match code with
    | none => simp [map_license_class]
    | some s =>
      simp only [map_license_class]
      split_ifs <;> simp

/-- Witness for C9 at a concrete unmapped code. -/
theorem c9_witness :
    (some "Z" : Option String)
        ∉ ([some "E", some "G", some "T", some "A", some "C"] :
            List (Option String))
    ∧ map_license_class (some "Z") = "Unknown Class" :=
  ⟨by decide, c9_license_class_mapping.2.2.2.2.2.2.1 (some "Z") (by decide)⟩

/-- Claim C2: with a parseable licenseEnd and no persisted record, the
action is Insert and the stored status is the literal New, whatever the
natural status would have been (the clock is universally quantified, so
this covers expired license ends). -/
theorem c2_insert_status_new (c : Callsign) (now : Clock) (nus : List String)
    (h : license_end_parses c = true) :
    insert_or_update_callsign_in_db c none now nus
      = .insert (insertParams c (formatDate now.date))
    ∧ (insertParams c (formatDate now.date)).status = "New" := by
  obtain ⟨d, hd⟩ := strptime_ok_of_parses h
  refine ⟨?_, rfl⟩
  unfold insert_or_update_callsign_in_db
  rw [hd]

/-- Witness for C2: a license end already expired at the witness clock, so
the natural status would be License Expired, yet the insert stores New. -/
theorem c2_witness :
    license_end_parses (mkRecord "John" "Doe" (some "2020-01-01")) = true
    ∧ strptimeLtNow ⟨2020, 1, 1⟩ clockOct2025 = true
    ∧ (insert_or_update_callsign_in_db (mkRecord "John" "Doe" (some "2020-01-01"))
          none clockOct2025 nusDefault
        = .insert (insertParams (mkRecord "John" "Doe" (some "2020-01-01"))
            (formatDate clockOct2025.date))
       ∧ (insertParams (mkRecord "John" "Doe" (some "2020-01-01"))
            (formatDate clockOct2025.date)).status = "New") :=
  ⟨by decide, by decide,
    c2_insert_status_new (mkRecord "John" "Doe" (some "2020-01-01"))
      clockOct2025 nusDefault (by decide)⟩

/-- Claim C7 counterexample: the source strips the silent-key pattern with
an unanchored re.sub, so an interior occurrence is removed as well; the
claim as stated (only a trailing suffix is removed) fails on this input. -/
theorem c7_counterexample :
    cleaned_callsign "AB/SK12CD" = "ABCD"
    ∧ spec_trailing_suffix_removed "AB/SK12CD" = "AB/SK12CD"
    ∧ cleaned_callsign "AB/SK12CD" ≠ spec_trailing_suffix_removed "AB/SK12CD" := by
  exact ⟨by decide, by decide, by decide⟩

/-- Claim C7 (amended): the identifier used for lookup and persistence is
the upper-cased input with every left-to-right occurrence of the
slash-SK-digits pattern removed, not only a trailing one.  When the only
occurrence is a trailing suffix after a pattern-free prefix, the result is
exactly that prefix; an input with no occurrence is only upper-cased; and
KB7OUU/SK2025 normalizes to KB7OUU. -/
theorem c7_cleaned_callsign :
    (∀ (s : String) (p ds : List Char),
        (pyUpperStr s).data = p ++ '/' :: 'S' :: 'K' :: ds →
        ds ≠ [] → ds.all Char.isDigit = true →
        containsSkPattern p = false →
        cleaned_callsign s = String.mk p)
    ∧ (∀ s : String, containsSkPattern (pyUpperStr s).data = false →
        cleaned_callsign s = pyUpperStr s)
    ∧ cleaned_callsign "KB7OUU/SK2025" = "KB7OUU" := by
  refine ⟨?_, ?_, by decide⟩
  · intro s p ds hu hne hds hp
    unfold cleaned_callsign
    rw [hu, stripSk_clean_prefix p ds hp hne hds]
  · intro s h
    unfold cleaned_callsign
    rw [stripSk_no_occurrence _ h]

/-- Witness for C7 at the round-trip input named by the spec. -/
theorem c7_witness :
    (pyUpperStr "KB7OUU/SK2025").data
      = ['K', 'B', '7', 'O', 'U', 'U'] ++ '/' :: 'S' :: 'K' :: ['2', '0', '2', '5']
    ∧ cleaned_callsign "KB7OUU/SK2025"
      = String.mk ['K', 'B', '7', 'O', 'U', 'U'] :=
  ⟨by decide,
    c7_cleaned_callsign.1 "KB7OUU/SK2025" ['K', 'B', '7', 'O', 'U', 'U']
      ['2', '0', '2', '5'] (by decide) (by decide) (by decide) (by decide)⟩

/-- Claim C10 counterexample: a persistence failure during the deactivation
write is reported WITHOUT the offending identifier — the handler there
formats only the database error — so the claim that every persistence
failure report includes the identifier is false. -/
theorem c10_counterexample :
    (update_inactive_run "KB7OUU" (some ⟨"John", "Doe", "Active"⟩) clockOct2025
        nusDefault true "HY000 general error").errPrint
      = some "Error updating callsign status in database: HY000 general error"
    ∧ containsStr "Error updating callsign status in database: HY000 general error"
        "KB7OUU" = false := by
  exact ⟨by decide, by decide⟩

/-- Claim C10 (amended): a persistence failure during the insert/update
write is reported with the identifier in the message and the transaction is
not committed; a failure during the deactivation write is also reported and
uncommitted, but its message omits the identifier; and the bulk driver
still produces one outcome per identifier. -/
theorem c10_persistence_failure_handling :
    (∀ (c : Callsign) (row : Option DbRow) (now : Clock) (nus : List String)
        (dbErr : String) (p : WriteParams),
        insert_or_update_callsign_in_db c row now nus = .update p →
        (insert_or_update_run c row now nus true dbErr).committed = false
        ∧ ∃ m, (insert_or_update_run c row now nus true dbErr).errPrint = some m
            ∧ containsStr m c.call = true)
    ∧ (∀ (c : Callsign) (row : Option DbRow) (now : Clock) (nus : List String)
        (dbErr : String) (p : WriteParams),
        insert_or_update_callsign_in_db c row now nus = .insert p →
        (insert_or_update_run c row now nus true dbErr).committed = false
        ∧ ∃ m, (insert_or_update_run c row now nus true dbErr).errPrint = some m
            ∧ containsStr m c.call = true)
    ∧ (∀ (call : String) (r : DbRow) (now : Clock) (nus : List String)
        (dbErr : String),
        nus.contains r.status = false →
        (update_inactive_run call (some r) now nus true dbErr).committed = false
        ∧ (update_inactive_run call (some r) now nus true dbErr).errPrint
          = some ("Error updating callsign status in database: " ++ dbErr))
    ∧ (∀ (fetch : String → FetchResult) (calls : List String) (upd chk : Bool)
        (rows : String → Option DbRow) (now : Clock) (nus : List String),
        (refresh_database fetch calls upd chk rows now nus).length
          = calls.length) := by
  refine ⟨?_, ?_, ?_, ?_⟩
  · intro c row now nus dbErr p h
    unfold insert_or_update_run
    rw [h]
    refine ⟨rfl, "Error inserting or updating callsign " ++ c.call
      ++ " in database: " ++ dbErr, rfl, ?_⟩
    exact containsStr_of_data _ _ ("Error inserting or updating callsign ").data
      ((" in database: " ++ dbErr).data) (by simp [strData_append, List.append_assoc])
  · intro c row now nus dbErr p h
    unfold insert_or_update_run
    rw [h]
    refine ⟨rfl, "Error inserting or updating callsign " ++ c.call
      ++ " in database: " ++ dbErr, rfl, ?_⟩
    exact containsStr_of_data _ _ ("Error inserting or updating callsign ").data
      ((" in database: " ++ dbErr).data) (by simp [strData_append, List.append_assoc])
  · intro call r now nus dbErr h
    have hnm : r.status ∉ nus := by simpa using h
    unfold update_inactive_run
    simp [hnm]
  · intro fetch calls upd chk rows now nus
    unfold refresh_database
    exact List.length_map _ _

/-- Witness for C10 at a concrete matching update that fails to persist. -/
theorem c10_witness :
    insert_or_update_callsign_in_db (mkRecord "John" "Doe" (some "2030-01-01"))
        (some ⟨"John", "Doe", "Active"⟩) clockOct2025 nusDefault
      = .update (updateParams (mkRecord "John" "Doe" (some "2030-01-01"))
          "Active" "2025-10-12")
    ∧ ((insert_or_update_run (mkRecord "John" "Doe" (some "2030-01-01"))
          (some ⟨"John", "Doe", "Active"⟩) clockOct2025 nusDefault true
          "disk full").committed = false
       ∧ ∃ m, (insert_or_update_run (mkRecord "John" "Doe" (some "2030-01-01"))
            (some ⟨"John", "Doe", "Active"⟩) clockOct2025 nusDefault true
            "disk full").errPrint = some m
          ∧ containsStr m (mkRecord "John" "Doe" (some "2030-01-01")).call = true) :=
  ⟨by decide,
    c10_persistence_failure_handling.1 (mkRecord "John" "Doe" (some "2030-01-01"))
      (some ⟨"John", "Doe", "Active"⟩) clockOct2025 nusDefault "disk full"
      (updateParams (mkRecord "John" "Doe" (some "2030-01-01")) "Active" "2025-10-12")
      (by decide)⟩

/-- Claim C4: a lookup error carrying the Not found marker deactivates an
existing non-protected record, writing Inactive plus the updated date; with
no persisted record nothing is written; any other lookup error is reported
and causes no state change.  The last conjunct ties the per-identifier
driver to this handler. -/
theorem c4_not_found_deactivation :
    (∀ (m cl : String) (r : DbRow) (now : Clock) (nus : List String),
        containsStr m "Not found" = true → nus.contains r.status = false →
        handle_process_error cl m (some r) now nus
          = [.deactivate cl (formatDate now.date)])
    ∧ (∀ (m cl : String) (now : Clock) (nus : List String),
        containsStr m "Not found" = true →
        handle_process_error cl m none now nus = [])
    ∧ (∀ (m cl : String) (row : Option DbRow) (now : Clock) (nus : List String),
        containsStr m "Not found" = false →
        handle_process_error cl m row now nus
          = [.errorPrint ("Error fetching data for " ++ cl ++ ": " ++ m)])
    ∧ (∀ (fetch : String → FetchResult) (raw : String) (upd chk : Bool)
        (row : Option DbRow) (now : Clock) (nus : List String) (m : String),
        fetch (cleaned_callsign raw) = .err m →
        process_callsign fetch raw upd chk row now nus
          = handle_process_error (cleaned_callsign raw) m row now nus) := by
  refine ⟨?_, ?_, ?_, ?_⟩
  · intro m cl r now nus hm hs
    have hnm : r.status ∉ nus := by simpa using hs
    unfold handle_process_error update_callsign_status_to_inactive_if_needed
    rw [hm]
    simp [hnm]
  · intro m cl now nus hm
    unfold handle_process_error update_callsign_status_to_inactive_if_needed
    rw [hm]
    simp
  · intro m cl row now nus hm
    unfold handle_process_error
    rw [hm]
    simp
  · intro fetch raw upd chk row now nus m hf
    unfold process_callsign
    simp only [hf]

/-- Witness for C4: a Not found fetch error for an identifier with an
existing non-protected persisted record. -/
theorem c4_witness :
    containsStr "Error: Not found" "Not found" = true
    ∧ nusDefault.contains "Active" = false
    ∧ handle_process_error "KB7OUU" "Error: Not found"
        (some ⟨"John", "Doe", "Active"⟩) clockOct2025 nusDefault
      = [.deactivate "KB7OUU" (formatDate clockOct2025.date)] :=
  ⟨by decide, by decide,
    c4_not_found_deactivation.1 "Error: Not found" "KB7OUU"
      ⟨"John", "Doe", "Active"⟩ clockOct2025 nusDefault (by decide) (by decide)⟩

/-- Claim C3: a persisted record whose status is in the protected set is
never written: with matching names the update becomes a NoOp, the
deactivation path leaves it unchanged, and no event produced by a full
process_callsign run for such a record writes the record, for every
identifier and every protected set. -/
theorem c3_protected_status_never_written (c : Callsign) (r : DbRow)
    (now : Clock) (nus : List String) (h : nus.contains r.status = true) :
    (∀ led, strptimeYMDOpt c.license_end = .ok led →
        normalize_first_name (rstripComma r.firstName)
          = normalize_first_name c.first_name →
        lowerStr r.lastName = lowerStr c.last_name →
        insert_or_update_callsign_in_db c (some r) now nus = .noop)
    ∧ (∀ e ∈ insert_or_update_events c (some r) now nus, writesRecord e = false)
    ∧ (∀ cl : String,
        update_callsign_status_to_inactive_if_needed cl (some r) now nus = [])
    ∧ (∀ (fetch : String → FetchResult) (raw : String) (upd chk : Bool),
        ∀ e ∈ process_callsign fetch raw upd chk (some r) now nus,
          writesRecord e = false) := by
  have hmem : r.status ∈ nus := by simpa using h
  refine ⟨?_, iou_events_protected c r now nus h, ?_, ?_⟩
  · intro led hled hfn hln
    unfold insert_or_update_callsign_in_db
    rw [hled]
    simp [hfn, hln, hmem]
  · intro cl
    unfold update_callsign_status_to_inactive_if_needed
    simp [hmem]
  · intro fetch raw upd chk e he
    unfold process_callsign at he
    cases hf : fetch (cleaned_callsign raw) with
    | err m =>
      simp only [hf] at he
      exact handle_error_protected _ m r now nus h e he
    | ok c0 =>
      simp only [hf] at he
      cases hchk : chk with
      | false =>
        simp only [hchk] at he
        simp only [Bool.false_eq_true, if_false] at he
        cases hu : upd with
        | false => simp [hu] at he
        | true =>
          simp only [hu, if_true, List.nil_append] at he
          exact iou_events_protected _ r now nus h e he
      | true =>
        simp only [hchk, if_true] at he
        cases hc : check_callsign_status (cleaned_callsign raw)
            { c0 with call := cleaned_callsign raw } upd (some r) now nus with
        | error m =>
          rw [hc] at he
          exact handle_error_protected _ m r now nus h e he
        | ok evs =>
          rw [hc] at he
          rcases List.mem_append.mp he with hin | hin
          · exact check_protected _ _ upd r now nus evs h hc e hin
          · cases hu : upd with
            | false => rw [hu] at hin; simp at hin
            | true =>
              rw [hu] at hin
              simp only [if_true] at hin
              exact iou_events_protected _ r now nus h e hin

/-- Witness for C3: a protected (SK) row with matching names yields NoOp. -/
theorem c3_witness :
    nusDefault.contains "SK" = true
    ∧ insert_or_update_callsign_in_db (mkRecord "John" "Doe" (some "2030-01-01"))
        (some ⟨"John", "Doe", "SK"⟩) clockOct2025 nusDefault = .noop :=
  ⟨by decide,
    (c3_protected_status_never_written (mkRecord "John" "Doe" (some "2030-01-01"))
        ⟨"John", "Doe", "SK"⟩ clockOct2025 nusDefault (by decide)).1
      ⟨2030, 1, 1⟩ rfl (by decide) (by decide)⟩

/-- Claim C5 counterexample: the engine's match comparison uses the
comparison-form names (normalize_first_name), but the mismatch report's
first-name detail line is guarded by the coarser normalize_name test on the
lowercased names.  Here the comparison forms differ (so a FlagMismatch is
produced and no write happens) yet the report carries no first-name pair,
refuting the claim's "exactly when the first names differ". -/
theorem c5_counterexample :
    normalize_first_name (rstripComma "J Smith") ≠ normalize_first_name "J"
    ∧ insert_or_update_callsign_in_db (mkRecord "J" "Jones" (some "2030-01-01"))
        (some ⟨"J Smith", "Jones", "Active"⟩) clockOct2025 nusDefault
      = .flagMismatch
          "No update performed for callsign W1AW due to mismatch in first or last name.\n"
    ∧ containsStr
        "No update performed for callsign W1AW due to mismatch in first or last name.\n"
        "First name mismatch" = false := by
  exact ⟨by decide, by decide, by decide⟩

/-- Claim C5 (amended): when the names fail the match comparison the action
is FlagMismatch and nothing is written; the report contains the identifier;
it contains the last-name pair exactly when the lowercased last names
differ, but the first-name pair exactly when the first words of the
lowercased whitespace-collapsed names differ (normalize_name), a coarser
test than the comparison-form match — so a pair that differs only in
comparison form yields a report with no first-name detail line. -/
theorem c5_flag_mismatch_report (c : Callsign) (r : DbRow) (now : Clock)
    (nus : List String) (hp : license_end_parses c = true)
    (hnm : ¬ (normalize_first_name (rstripComma r.firstName)
          = normalize_first_name c.first_name
        ∧ lowerStr r.lastName = lowerStr c.last_name)) :
    insert_or_update_callsign_in_db c (some r) now nus
      = .flagMismatch (mismatch_message c.call (rstripComma r.firstName)
          c.first_name r.lastName c.last_name)
    ∧ insert_or_update_events c (some r) now nus
      = [.mismatchLog (mismatch_message c.call (rstripComma r.firstName)
          c.first_name r.lastName c.last_name)]
    ∧ containsStr (mismatch_message c.call (rstripComma r.firstName)
          c.first_name r.lastName c.last_name) c.call = true
    ∧ mismatch_message c.call (rstripComma r.firstName) c.first_name
        r.lastName c.last_name
      = mismatch_header c.call
        ++ (if normalize_name (lowerStr (rstripComma r.firstName))
              ≠ normalize_name (lowerStr c.first_name) then
              first_name_mismatch_line (rstripComma r.firstName) c.first_name
            else "")
        ++ (if lowerStr r.lastName ≠ lowerStr c.last_name then
              last_name_mismatch_line r.lastName c.last_name
            else "") := by
  obtain ⟨d, hd⟩ := strptime_ok_of_parses hp
  have hact : insert_or_update_callsign_in_db c (some r) now nus
      = .flagMismatch (mismatch_message c.call (rstripComma r.firstName)
          c.first_name r.lastName c.last_name) := by
    unfold insert_or_update_callsign_in_db
    rw [hd]
    simp [hnm]
  refine ⟨hact, ?_, mismatch_message_contains_call _ _ _ _ _, rfl⟩
  unfold insert_or_update_events
  rw [hact]

/-- Witness for C5 at a pair that differs in both tests, so the report does
carry the first-name pair. -/
theorem c5_witness :
    license_end_parses (mkRecord "Jon" "Doe" (some "2030-01-01")) = true
    ∧ ¬ (normalize_first_name (rstripComma "John") = normalize_first_name "Jon"
        ∧ lowerStr "Doe" = lowerStr "Doe")
    ∧ insert_or_update_callsign_in_db (mkRecord "Jon" "Doe" (some "2030-01-01"))
        (some ⟨"John", "Doe", "Active"⟩) clockOct2025 nusDefault
      = .flagMismatch (mismatch_message "W1AW" (rstripComma "John") "Jon"
          "Doe" "Doe") :=
  ⟨by decide, by decide,
    (c5_flag_mismatch_report (mkRecord "Jon" "Doe" (some "2030-01-01"))
        ⟨"John", "Doe", "Active"⟩ clockOct2025 nusDefault (by decide)
        (by decide)).1⟩

/-- Claim C1 counterexample: for a record with an absent licenseEnd, the
status-check pass with an existing persisted row raises out of strptime and
process_callsign surfaces the failure as an error report, contradicting the
claim that the skip is never surfaced as an error.  (No insert, update or
mismatch entry happens, as the claim says.) -/
theorem c1_counterexample :
    (mkRecord "John" "Doe" none).license_end = none
    ∧ process_callsign (fun _ => .ok (mkRecord "John" "Doe" none)) "KB7OUU"
        true true (some ⟨"John", "Doe", "Active"⟩) clockOct2025 nusDefault
      = [.errorPrint
          "Error fetching data for KB7OUU: strptime() argument 1 must be str, not None"] := by
  exact ⟨rfl, by decide⟩

/-- Claim C1 (amended): with an absent or unparseable licenseEnd the
insert/update engine performs no action at all — no write, no mismatch
entry, no error — and a full run is silent when the status-check pass is
off or no persisted record exists.  When the status-check pass runs against
an existing persisted record, the date-parse failure propagates out of the
status check and is routed to the generic lookup-error handler with the
exception text: an absent value (whose TypeError text never carries the
not-found marker) and any unparseable value whose ValueError text lacks
the marker are surfaced as an error report with no write and no mismatch
entry, while an unparseable value whose text happens to contain the marker
makes the handler run the not-found deactivation path instead. -/
theorem c1_unparseable_license_end_handling (c0 : Callsign) (raw : String)
    (upd chk : Bool) (row : Option DbRow) (now : Clock) (nus : List String)
    (h : license_end_parses c0 = false) :
    insert_or_update_callsign_in_db c0 row now nus = .skipInvalid
    ∧ insert_or_update_events c0 row now nus = []
    ∧ ((chk = false ∨ row = none) →
        process_callsign (fun _ => .ok c0) raw upd chk row now nus = [])
    ∧ (∀ r : DbRow, chk = true → row = some r →
        ∃ m, strptimeYMDOpt c0.license_end = .error m
          ∧ process_callsign (fun _ => .ok c0) raw upd chk row now nus
            = handle_process_error (cleaned_callsign raw) m row now nus)
    ∧ (∀ r : DbRow, chk = true → row = some r → c0.license_end = none →
        process_callsign (fun _ => .ok c0) raw upd chk row now nus
          = [.errorPrint ("Error fetching data for " ++ cleaned_callsign raw
              ++ ": " ++ "strptime() argument 1 must be str, not None")])
    ∧ (∀ (r : DbRow) (t : String), chk = true → row = some r →
        c0.license_end = some t →
        containsStr ("time data " ++ t ++ " does not match format %Y-%m-%d")
          "Not found" = false →
        process_callsign (fun _ => .ok c0) raw upd chk row now nus
          = [.errorPrint ("Error fetching data for " ++ cleaned_callsign raw
              ++ ": " ++ ("time data " ++ t
                ++ " does not match format %Y-%m-%d"))])
    ∧ (∀ (r : DbRow) (t : String), chk = true → row = some r →
        c0.license_end = some t →
        containsStr ("time data " ++ t ++ " does not match format %Y-%m-%d")
          "Not found" = true →
        process_callsign (fun _ => .ok c0) raw upd chk row now nus
          = update_callsign_status_to_inactive_if_needed (cleaned_callsign raw)
              row now nus) := by
  obtain ⟨em0, he0⟩ := strptime_error_of_not_parses h
  obtain ⟨hact, hev⟩ := iou_skip_of_error c0 row now nus em0 he0
  have he' : strptimeYMDOpt
      ({ c0 with call := cleaned_callsign raw } : Callsign).license_end
      = .error em0 := he0
  have hev' : insert_or_update_events { c0 with call := cleaned_callsign raw }
      row now nus = [] :=
    (iou_skip_of_error _ row now nus em0 he').2
  have hse_some : ∀ t : String, c0.license_end = some t →
      strptimeYMDOpt c0.license_end
        = .error ("time data " ++ t ++ " does not match format %Y-%m-%d") := by
    intro t hle
    have hpd : parseDateYMD t = none := by
      cases hp : parseDateYMD t with
      | none => rfl
      | some d =>
        exfalso
        unfold license_end_parses at h
        rw [hle] at h
        have hok : strptimeYMDOpt (some t) = Except.ok d := by
          simp only [strptimeYMDOpt, hp]
        rw [hok] at h
        simp at h
    rw [hle]
    simp only [strptimeYMDOpt, hpd]
  have hroute : ∀ r : DbRow, chk = true → row = some r →
      ∀ em : String, strptimeYMDOpt c0.license_end = Except.error em →
      process_callsign (fun _ => FetchResult.ok c0) raw upd chk row now nus
        = handle_process_error (cleaned_callsign raw) em row now nus := by
    intro r hchk hrow em he
    subst hchk hrow
    have hcheck : check_callsign_status (cleaned_callsign raw)
        { c0 with call := cleaned_callsign raw } upd (some r) now nus
        = .error em := by
      unfold check_callsign_status
      rw [show strptimeYMDOpt
          ({ c0 with call := cleaned_callsign raw } : Callsign).license_end
          = Except.error em from he]
    unfold process_callsign
    simp only [if_true, hcheck]
  refine ⟨hact, hev, ?_, ?_, ?_, ?_, ?_⟩
  · intro hor
    unfold process_callsign
    rcases hor with hchk | hrow
    · subst hchk
      simp only [Bool.false_eq_true, if_false]
      cases hu : upd with
      | false => simp
      | true => simp [hev']
    · subst hrow
      have hcheck : check_callsign_status (cleaned_callsign raw)
          { c0 with call := cleaned_callsign raw } upd none now nus = .ok [] := rfl
      cases hchk : chk with
      | false =>
        simp only [Bool.false_eq_true, if_false]
        cases hu : upd with
        | false => simp
        | true => simp [hev']
      | true =>
        simp only [if_true, hcheck]
        cases hu : upd with
        | false => simp
        | true => simp [hev']
  · intro r hchk hrow
    exact ⟨em0, he0, hroute r hchk hrow em0 he0⟩
  · intro r hchk hrow hle
    have hse : strptimeYMDOpt c0.license_end
        = .error "strptime() argument 1 must be str, not None" := by
      rw [hle]
      rfl
    rw [hroute r hchk hrow _ hse]
    unfold handle_process_error
    rw [show containsStr "strptime() argument 1 must be str, not None"
        "Not found" = false from by decide]
    simp
  · intro r t hchk hrow hle hnm
    rw [hroute r hchk hrow _ (hse_some t hle)]
    unfold handle_process_error
    rw [hnm]
    simp
  · intro r t hchk hrow hle hnm
    rw [hroute r hchk hrow _ (hse_some t hle)]
    unfold handle_process_error
    rw [hnm]
    simp

/-- Witness for C1 at the concrete inputs of the counterexample. -/
theorem c1_witness :
    license_end_parses (mkRecord "John" "Doe" none) = false
    ∧ process_callsign (fun _ => .ok (mkRecord "John" "Doe" none)) "KB7OUU"
        true true (some ⟨"John", "Doe", "Active"⟩) clockOct2025 nusDefault
      = [.errorPrint ("Error fetching data for " ++ cleaned_callsign "KB7OUU"
          ++ ": " ++ "strptime() argument 1 must be str, not None")] :=
  ⟨by decide,
    (c1_unparseable_license_end_handling (mkRecord "John" "Doe" none) "KB7OUU"
        true true (some ⟨"John", "Doe", "Active"⟩) clockOct2025 nusDefault
        (by decide)).2.2.2.2.1 ⟨"John", "Doe", "Active"⟩ rfl rfl rfl⟩

/-- Claim C6: for a first name whose title-cased form has at least two
words, some later one being a single letter, the storage form keeps the
first word and drops exactly the later single-letter words (so it is
strictly shorter and no later word of length 1 survives), while the
comparison form — whitespace-collapsed and title-cased — strips exactly one
leading single-letter word when more than one word remains and otherwise
returns the collapsed title-cased name unchanged. -/
theorem c6_first_name_normalization (s : String)
    (h1 : 2 ≤ (pySplitWs (pyTitleStr s)).length)
    (h2 : ∃ w ∈ (pySplitWs (pyTitleStr s)).tail, w.length = 1) :
    pySplitWs (parse_callsign_first_name s)
      = (pySplitWs (pyTitleStr s)).headD ""
          :: (pySplitWs (pyTitleStr s)).tail.filter (fun x => 1 < x.length)
    ∧ (pySplitWs (parse_callsign_first_name s)).length
        < (pySplitWs (pyTitleStr s)).length
    ∧ (∀ w ∈ (pySplitWs (parse_callsign_first_name s)).tail, 1 < w.length)
    ∧ (1 < (pySplitChar ' ' (pyTitleStr (joinSpace (pySplitWs s)))).length →
        normalize_first_name s
          = if ((pySplitChar ' ' (pyTitleStr (joinSpace (pySplitWs s)))).headD
                "").length = 1 then
              joinSpace (pySplitChar ' ' (pyTitleStr (joinSpace (pySplitWs s)))).tail
            else pyTitleStr (joinSpace (pySplitWs s))) := by
  cases hw : pySplitWs (pyTitleStr s) with
  | nil => rw [hw] at h1; simp at h1
  | cons w ws =>
    rw [hw] at h2
    simp only [List.tail_cons] at h2
    have hwords := pySplitWs_words (pyTitleStr s)
    have hparse : parse_callsign_first_name s
        = joinSpace (w :: ws.filter (fun x => 1 < x.length)) := by
      unfold parse_callsign_first_name
      simp only [hw]
    have hmemprops : ∀ x ∈ w :: ws.filter (fun x => 1 < x.length),
        x.data ≠ [] ∧ ∀ c ∈ x.data, c.isWhitespace = false := by
      intro x hx
      rcases List.mem_cons.mp hx with rfl | hx'
      · exact hwords x (by rw [hw]; exact List.mem_cons_self _ _)
      · exact hwords x
          (by rw [hw]; exact List.mem_cons_of_mem _ (List.mem_of_mem_filter hx'))
    have hsplit : pySplitWs (parse_callsign_first_name s)
        = w :: ws.filter (fun x => 1 < x.length) := by
      rw [hparse]
      exact pySplitWs_joinSpace _ hmemprops
    refine ⟨?_, ?_, ?_, ?_⟩
    · rw [hsplit]
      simp
    · rw [hsplit]
      obtain ⟨x, hx, hx1⟩ := h2
      simp only [List.length_cons]
      have hlt : (ws.filter (fun x => 1 < x.length)).length < ws.length := by
        apply length_filter_lt_of_mem hx
        simp [hx1]
      omega
    · intro x hx
      rw [hsplit] at hx
      simp only [List.tail_cons] at hx
      have h3 := List.of_mem_filter hx
      simpa using h3
    · intro hc
      by_cases hh : ((pySplitChar ' ' (pyTitleStr (joinSpace (pySplitWs s)))).headD
          "").length = 1
      · simp [normalize_first_name, hc, hh]
      · simp [normalize_first_name, hc, hh]

/-- Witness for C6: the input J B Smith keeps its leading initial in the
storage form (J Smith) while the comparison form strips it. -/
theorem c6_witness :
    2 ≤ (pySplitWs (pyTitleStr "J B Smith")).length
    ∧ (∃ w ∈ (pySplitWs (pyTitleStr "J B Smith")).tail, w.length = 1)
    ∧ pySplitWs (parse_callsign_first_name "J B Smith")
      = (pySplitWs (pyTitleStr "J B Smith")).headD ""
          :: (pySplitWs (pyTitleStr "J B Smith")).tail.filter
              (fun x => 1 < x.length) :=
  ⟨by decide, by decide,
    (c6_first_name_normalization "J B Smith" (by decide) (by decide)).1⟩
